import Mathlib

/-! Verification development for the relay geolocation script.

This file gives a shallow embedding of the core of `relays_geo_lookup.py`:
the GeoIP table loader, the `bisect_right` floor-search interval lookup,
the URL normalizer `clean_url`, the dotted-address parse performed by
`socket.inet_aton` followed by a big-endian `struct.unpack`, the
`resolve_and_locate` pipeline step, and the output/exit-status structure of
`main`.  Pure functions become Lean functions; the DNS resolver and the
fallible I/O stages become explicit parameters; Python integers become
`Int`/`Nat`.  Theorems about these definitions follow the definitions. -/

namespace GeoRelays

/-! ## GeoIP database representation -/

/-- In-memory form of the `GeoIPDatabase` class: three parallel lists
populated by `load`.  The `db_path`/`loaded` bookkeeping fields are
I/O-only and take no part in lookup semantics, so they are omitted.
Range bounds come from Python `int(...)`, hence `Int`. -/
structure GeoIPDatabase where
  starts : List Int
  ends : List Int
  locations : List (String × String)

/-! ## Python `int()` as applied to the dataset columns -/

/-- Digit run with single underscores permitted between digits, as Python's
`int` accepts; accumulates the decimal value.  The caller has already
checked that the run starts with a digit. -/
def digitsUAux : List Char → Nat → Option Nat
  | [], acc => some acc
  | '_' :: d :: cs, acc =>
    if d.isDigit then digitsUAux cs (acc * 10 + (d.toNat - 48)) else none
  | ['_'], _ => none
  | c :: cs, acc =>
    if c.isDigit then digitsUAux cs (acc * 10 + (c.toNat - 48)) else none

/-- Nonempty digit run (first character must be a digit, not an
underscore), with Python's underscore grouping. -/
def pyIntDigits (l : List Char) : Option Nat :=
  match l with
  | [] => none
  | c :: _ => if c.isDigit then digitsUAux l 0 else none

/-- Python `int(s)` for base 10: optional surrounding whitespace, optional
sign, then a nonempty digit run.  `none` models `ValueError`. -/
def pyInt (s : String) : Option Int :=
  match ((s.data.dropWhile Char.isWhitespace).reverse.dropWhile
      Char.isWhitespace).reverse with
  | '+' :: ds => (pyIntDigits ds).map (fun n => (n : Int))
  | '-' :: ds => (pyIntDigits ds).map (fun n => -(n : Int))
  | ds => (pyIntDigits ds).map (fun n => (n : Int))

/-! ## Dataset loader (`GeoIPDatabase.load`) -/

/-- The per-row decision of the `load` loop, on a CSV row already split
into fields: `none` means `continue` (row skipped), `some (s, e, lat, lon)`
means the row appends one record.  Mirrors, in order: `if not row or
row[0].startswith('#')` (the startswith test is written as a first-character
comparison to keep the definition kernel-computable), `if len(row) < 9`,
the two `int(...)` calls whose `ValueError` is caught, and the
`if lat and lon` truthiness test. -/
def rowRecord (row : List String) : Option (Int × Int × String × String) :=
  if row = [] then none
  else if (row.headD "").data.take 1 = ['#'] then none
  else if row.length < 9 then none
  else
    match pyInt (row.getD 0 ""), pyInt (row.getD 1 "") with
    | some s, some e =>
      if row.getD 7 "" ≠ "" ∧ row.getD 8 "" ≠ "" then
        some (s, e, row.getD 7 "", row.getD 8 "")
      else none
    | _, _ => none

/-- `GeoIPDatabase.load`: builds the three parallel lists from the parsed
CSV rows, appending one record per accepted row, in file order. -/
def GeoIPDatabase.load (rows : List (List String)) : GeoIPDatabase :=
  { starts := (rows.filterMap rowRecord).map (fun r => r.1)
    ends := (rows.filterMap rowRecord).map (fun r => r.2.1)
    locations := (rows.filterMap rowRecord).map (fun r => (r.2.2.1, r.2.2.2)) }

/-! ## `bisect.bisect_right` -/

/-- The standard library's `bisect_right` loop (`while lo < hi: mid =
(lo+hi)//2; ...`), with an explicit fuel bounding the iteration count;
`hi - lo` shrinks every iteration, so fuel `a.length` suffices for the
initial call `lo = 0`, `hi = len(a)`. -/
def bisect_right_aux (a : List Int) (x : Int) : Nat → Nat → Nat → Nat
  | 0, lo, _ => lo
  | fuel + 1, lo, hi =>
    if lo < hi then
      if x < a.getD ((lo + hi) / 2) 0 then
        bisect_right_aux a x fuel lo ((lo + hi) / 2)
      else
        bisect_right_aux a x fuel ((lo + hi) / 2 + 1) hi
    else lo

/-- `bisect.bisect_right(a, x)`. -/
def bisect_right (a : List Int) (x : Int) : Nat :=
  bisect_right_aux a x a.length 0 a.length

/-! ## `socket.inet_aton` composed with `struct.unpack("!L", ...)`

`inet_aton` is a C-library collaborator (not repository code); it is
modelled from its documented contract (Python docs and inet(3)): the
input splits on `.` into one to four components, each parsed like
`strtoul` with base detection (`0x`/`0X` hex, leading `0` octal, else
decimal); with `n` components the first `n - 1` must be at most `0xff`
and the last must fit in the remaining `4 - (n - 1)` bytes; any trailing
garbage in a component is an error.  The subsequent big-endian unpack
yields exactly the composed 32-bit value, which these definitions return
directly.  (Tolerance for trailing whitespace is not modelled.) -/

/-- Hexadecimal digit test. -/
def isHexDigit (c : Char) : Bool :=
  (48 ≤ c.toNat && c.toNat ≤ 57) || (97 ≤ c.toNat && c.toNat ≤ 102) ||
    (65 ≤ c.toNat && c.toNat ≤ 70)

/-- Octal digit test. -/
def isOctDigit (c : Char) : Bool :=
  48 ≤ c.toNat && c.toNat ≤ 55

/-- Value of one hexadecimal digit (junk value 0 outside the hex range;
only applied to characters passing `isHexDigit`). -/
def hexCharVal (c : Char) : Nat :=
  if 48 ≤ c.toNat && c.toNat ≤ 57 then c.toNat - 48
  else if 97 ≤ c.toNat && c.toNat ≤ 102 then c.toNat - 87
  else if 65 ≤ c.toNat && c.toNat ≤ 70 then c.toNat - 55
  else 0

/-- Decimal value of a digit run. -/
def decValue (l : List Char) : Nat :=
  l.foldl (fun acc c => acc * 10 + (c.toNat - 48)) 0

/-- Octal value of a digit run. -/
def octValue (l : List Char) : Nat :=
  l.foldl (fun acc c => acc * 8 + (c.toNat - 48)) 0

/-- Hexadecimal value of a digit run. -/
def hexValue (l : List Char) : Nat :=
  l.foldl (fun acc c => acc * 16 + hexCharVal c) 0

/-- `strtoul` with base 0 as `inet_aton` uses it: requires a leading
decimal digit, then consumes a maximal hex run after `0x`/`0X`, a maximal
octal run after a leading `0`, or a maximal decimal run; returns the value
and the unconsumed remainder. -/
def parseStrtoul0 : List Char → Option (Nat × List Char)
  | [] => none
  | c :: cs =>
    if c.isDigit then
      if c = '0' then
        match cs with
        | x :: d :: rest =>
          if (x == 'x' || x == 'X') && isHexDigit d then
            some (hexValue (d :: rest.takeWhile isHexDigit),
              rest.dropWhile isHexDigit)
          else
            some (octValue (cs.takeWhile isOctDigit), cs.dropWhile isOctDigit)
        | _ =>
          some (octValue (cs.takeWhile isOctDigit), cs.dropWhile isOctDigit)
      else
        some (decValue ((c :: cs).takeWhile Char.isDigit),
          (c :: cs).dropWhile Char.isDigit)
    else none

/-- One dot-separated component: the `strtoul` parse must consume the
whole component (`inet_aton` fails on a component with trailing junk). -/
def parseComponent (l : List Char) : Option Nat :=
  match parseStrtoul0 l with
  | some (v, []) => some v
  | _ => none

/-- Split on `.`; mirrors the scan of `inet_aton`, which consumes exactly
one separator per component boundary (`strtoul` never consumes a dot). -/
def splitOnDot : List Char → List (List Char)
  | [] => [[]]
  | c :: cs =>
    if c = '.' then [] :: splitOnDot cs
    else
      match splitOnDot cs with
      | [] => [[c]]
      | r :: rs => (c :: r) :: rs

/-- Final assembly of `inet_aton`: with `n` parsed components, the first
`n - 1` are single bytes and the last fills the remaining bytes; more than
four components fail.  The value is the big-endian composition, i.e. what
`struct.unpack("!L", packed)[0]` returns. -/
def assemble : List Nat → Option Nat
  | [v] => if v ≤ 4294967295 then some v else none
  | [a, v] => if a ≤ 255 ∧ v ≤ 16777215 then some (a * 16777216 + v) else none
  | [a, b, v] =>
    if a ≤ 255 ∧ b ≤ 255 ∧ v ≤ 65535 then
      some (a * 16777216 + b * 65536 + v)
    else none
  | [a, b, c, v] =>
    if a ≤ 255 ∧ b ≤ 255 ∧ c ≤ 255 ∧ v ≤ 255 then
      some (a * 16777216 + b * 65536 + c * 256 + v)
    else none
  | _ => none

/-- Parse every dot-separated component, failing if any fails (the scan
of `inet_aton` stops with an error at the first bad component; with no
side effects the sequential and the all-at-once reading agree). -/
def parseComponents : List (List Char) → Option (List Nat)
  | [] => some []
  | p :: ps =>
    match parseComponent p, parseComponents ps with
    | some v, some vs => some (v :: vs)
    | _, _ => none

/-- `inet_aton` on a character list. -/
def inetAtonChars (l : List Char) : Option Nat :=
  match parseComponents (splitOnDot l) with
  | some vals => assemble vals
  | none => none

/-- `struct.unpack("!L", socket.inet_aton(s))[0]`, with `none` modelling
the `socket.error` raised on malformed input. -/
def inet_aton (s : String) : Option Nat :=
  inetAtonChars s.data

/-- Join components with a dot between consecutive ones (the textual
inverse of `splitOnDot` on dot-free components); used to state the
address-codec theorems. -/
def joinDots : List (List Char) → List Char
  | [] => []
  | [p] => p
  | p :: ps => p ++ '.' :: joinDots ps

/-- The decimal digit character for `r` in `[0, 9]`. -/
def digitChar (r : Nat) : Char :=
  if r = 0 then '0' else if r = 1 then '1' else if r = 2 then '2'
  else if r = 3 then '3' else if r = 4 then '4' else if r = 5 then '5'
  else if r = 6 then '6' else if r = 7 then '7' else if r = 8 then '8'
  else '9'

/-- Decimal digits of `n`, most significant first; the fuel argument is
structural and any fuel of at least `n` suffices. -/
def decDigitsAux : Nat → Nat → List Char
  | 0, _ => []
  | fuel + 1, n =>
    if n = 0 then []
    else decDigitsAux fuel (n / 10) ++ [digitChar (n % 10)]

/-- Canonical decimal rendering of a natural number. -/
def decRepr (n : Nat) : List Char :=
  if n = 0 then ['0'] else decDigitsAux (n + 1) n

/-- The dotted-quad address text `a.b.c.d` with canonical decimal
components. -/
def mkQuad (a b c d : Nat) : String :=
  ⟨joinDots [decRepr a, decRepr b, decRepr c, decRepr d]⟩

/-! ## `GeoIPDatabase.lookup` -/

/-- The numeric part of `lookup`, after the address has been converted to
an integer: `idx = bisect_right(starts, ip)`; if `idx == 0` return `None`;
otherwise check `starts[idx-1] <= ip <= ends[idx-1]` and return
`locations[idx-1]` on success. -/
def lookup_num (db : GeoIPDatabase) (ip_num : Int) : Option (String × String) :=
  if bisect_right db.starts ip_num = 0 then none
  else if db.starts.getD (bisect_right db.starts ip_num - 1) 0 ≤ ip_num ∧
      ip_num ≤ db.ends.getD (bisect_right db.starts ip_num - 1) 0 then
    some (db.locations.getD (bisect_right db.starts ip_num - 1) ("", ""))
  else none

/-- `GeoIPDatabase.lookup`: parse the address (returning `None` on
`socket.error`), then do the floor search. -/
def GeoIPDatabase.lookup (db : GeoIPDatabase) (ip_str : String) :
    Option (String × String) :=
  match inet_aton ip_str with
  | none => none
  | some n => lookup_num db (n : Int)

/-! ## `clean_url` -/

/-- `re.sub(r'^wss?://', '', url)`: the anchored pattern strips one
leading `wss://` or `ws://`, matched case-sensitively (the Python call
passes no `re.IGNORECASE` flag). -/
def stripScheme (l : List Char) : List Char :=
  if l.take 6 = ['w', 's', 's', ':', '/', '/'] then l.drop 6
  else if l.take 5 = ['w', 's', ':', '/', '/'] then l.drop 5
  else l

/-- `url.split(sep)[0]`: the prefix before the first occurrence of the
separator (the whole string when the separator is absent). -/
def splitHead (sep : Char) (l : List Char) : List Char :=
  l.takeWhile (fun c => c != sep)

/-- `clean_url`: strip the scheme, then truncate at the first `/`, then at
the first `:`. -/
def clean_url (s : String) : String :=
  ⟨splitHead ':' (splitHead '/' (stripScheme s.data))⟩

/-! ## `resolve_and_locate` and the gather pipeline

The DNS resolver is an explicit parameter `resolver : String → Option
(List String)`: `none` models `getaddrinfo` raising (any exception),
`some addrs` models the list of IPv4 address texts extracted from the
returned address-info tuples (`info[4][0]` of each entry). -/

/-- `resolve_and_locate(url, raw_url, geo_db)`: empty hostname means
`None`; a resolver exception means `None`; an empty address list means
`None`; otherwise the first address is looked up, a missing interval
match means `None`, and a match yields `(raw_url, lat, lon)`. -/
def resolve_and_locate (resolver : String → Option (List String))
    (db : GeoIPDatabase) (url raw_url : String) :
    Option (String × String × String) :=
  if clean_url url = "" then none
  else
    match resolver (clean_url url) with
    | none => none
    | some [] => none
    | some (ip :: _) =>
      match db.lookup ip with
      | some (lat, lon) => some (raw_url, lat, lon)
      | none => none

/-- The task fan-out and gather of `main`: `tasks = [resolve_and_locate(
url, url, db) for url in urls]; results = await asyncio.gather(*tasks)`.
`asyncio.gather` is an external collaborator modelled by its contract:
it returns the task results positionally, in the order the coroutines
were passed, regardless of completion order. -/
def run_pipeline (resolver : String → Option (List String))
    (db : GeoIPDatabase) (urls : List String) :
    List (Option (String × String × String)) :=
  urls.map (fun url => resolve_and_locate resolver db url url)

/-! ## Output file contents and exit status of `main` -/

/-- The CSV data row written for one located outcome. -/
def outcomeRow (r : String × String × String) : List String :=
  [r.1, r.2.1, r.2.2]

/-- The header row `["Relay URL", "Latitude", "Longitude"]`. -/
def headerRow : List String :=
  ["Relay URL", "Latitude", "Longitude"]

/-- The sequence of `writer.writerow` calls of the result loop: one data
row per `some` result, appended in iteration order. -/
def write_rows (results : List (Option (String × String × String))) :
    List (List String) :=
  results.foldl
    (fun acc res =>
      match res with
      | some r => acc ++ [outcomeRow r]
      | none => acc)
    []

/-- The rows of the output file written by `main`, as a function of the
final URL list: `main` returns (writing nothing) when `urls` is empty
(`if not urls: ... return`), and otherwise writes the header followed by
the gathered rows.  `none` models "no output file written". -/
def main_output (resolver : String → Option (List String))
    (db : GeoIPDatabase) (urls : List String) : Option (List (List String)) :=
  if urls = [] then none
  else some (headerRow :: write_rows (run_pipeline resolver db urls))

/-- Exit behavior of `ensure_db_exists`: returns normally when the file
exists or when download-and-extract succeeds, else `sys.exit(1)`.  The
two Booleans abstract the fallible I/O collaborators. -/
def ensure_db_exit (db_file_exists download_extract_ok : Bool) : Option Nat :=
  if db_file_exists then none
  else if download_extract_ok then none
  else some 1

/-- Exit behavior of the `try`/`except` around the dataset read in
`load`: `sys.exit(1)` when reading the dataset file raises. -/
def load_exit (read_ok : Bool) : Option Nat :=
  if read_ok then none
  else some 1

/-- Exit status of a run that reaches the dataset stages, as a function
of each fallible step in `main`'s order: acquisition failure exits 1 and
a raising dataset read exits 1 (both via `sys.exit(1)`); after loading,
reading the URL list (the input-file `open`/read, or stdin) can raise,
and an exception there propagates uncaught past the
KeyboardInterrupt-only top-level handler, making the interpreter exit 1;
an empty final URL list returns early with exit 0 (no output file);
otherwise opening/writing the output file can likewise raise uncaught
(exit 1), and a completed run exits 0 — including runs locating zero
endpoints. -/
def main_exit_code (db_file_exists download_extract_ok read_ok : Bool)
    (input_read_ok urls_empty output_write_ok : Bool) : Nat :=
  match ensure_db_exit db_file_exists download_extract_ok with
  | some c => c
  | none =>
    match load_exit read_ok with
    | some c => c
    | none =>
      if input_read_ok then
        if urls_empty then 0
        else if output_write_ok then 0
        else 1
      else 1


/-! ## Helper lemmas about `clean_url` -/

theorem splitHead_mem {sep : Char} {l : List Char} {c : Char}
    (h : c ∈ splitHead sep l) : c ≠ sep := by
  have := List.mem_takeWhile_imp h
  simpa using this

theorem splitHead_splitHead (l : List Char) :
    splitHead ':' (splitHead '/' l) =
      l.takeWhile (fun c => !(c == '/' || c == ':')) := by
  unfold splitHead
  rw [List.takeWhile_takeWhile]
  congr 1
  funext c
  by_cases h1 : c = '/' <;> by_cases h2 : c = ':' <;> simp [h1, h2]

theorem stripScheme_of_no_colon {l : List Char} (h : (':' : Char) ∉ l) :
    stripScheme l = l := by
  have h6 : l.take 6 ≠ ['w', 's', 's', ':', '/', '/'] := by
    intro heq
    exact h (List.take_subset 6 l (by rw [heq]; decide))
  have h5 : l.take 5 ≠ ['w', 's', ':', '/', '/'] := by
    intro heq
    exact h (List.take_subset 5 l (by rw [heq]; decide))
  unfold stripScheme
  rw [if_neg h6, if_neg h5]

theorem cleanChars_idem (l : List Char) :
    splitHead ':' (splitHead '/' (stripScheme
      (splitHead ':' (splitHead '/' (stripScheme l))))) =
    splitHead ':' (splitHead '/' (stripScheme l)) := by
  have hc : (':' : Char) ∉ splitHead ':' (splitHead '/' (stripScheme l)) :=
    fun hm => splitHead_mem hm rfl
  have h1 : splitHead '/' (splitHead ':' (splitHead '/' (stripScheme l))) =
      splitHead ':' (splitHead '/' (stripScheme l)) := by
    apply List.takeWhile_eq_self_iff.mpr
    intro c hm
    have : c ≠ '/' := splitHead_mem (List.takeWhile_subset _ hm)
    simpa using this
  have h2 : splitHead ':' (splitHead ':' (splitHead '/' (stripScheme l))) =
      splitHead ':' (splitHead '/' (stripScheme l)) := by
    apply List.takeWhile_eq_self_iff.mpr
    intro c hm
    have : c ≠ ':' := splitHead_mem hm
    simpa using this
  rw [stripScheme_of_no_colon hc, h1, h2]

/-- C10: the endpoint normalizer is idempotent — for every string `s`,
`clean_url (clean_url s) = clean_url s` — because one application leaves
no scheme prefix, no `/` and no `:` for a second application to act on. -/
theorem clean_url_idempotent (s : String) :
    clean_url (clean_url s) = clean_url s := by
  show (⟨splitHead ':' (splitHead '/' (stripScheme
      (splitHead ':' (splitHead '/' (stripScheme s.data)))))⟩ : String) =
    ⟨splitHead ':' (splitHead '/' (stripScheme s.data))⟩
  exact congrArg (fun l => (⟨l⟩ : String)) (cleanChars_idem s.data)

/-! ## Output-file lemmas -/

theorem write_rows_eq (results : List (Option (String × String × String))) :
    write_rows results = results.filterMap (Option.map outcomeRow) := by
  have h : ∀ (rs : List (Option (String × String × String)))
      (acc : List (List String)),
      rs.foldl (fun acc res =>
        match res with
        | some r => acc ++ [outcomeRow r]
        | none => acc) acc = acc ++ rs.filterMap (Option.map outcomeRow) := by
    intro rs
    induction rs with
    | nil => intro acc; simp
    | cons r rs ih =>
      intro acc
      cases r with
      | none => simpa using ih acc
      | some v => simp [ih, List.filterMap_cons]
  simpa using h results []

theorem length_filterMap_outcomes
    (results : List (Option (String × String × String))) :
    (results.filterMap (Option.map outcomeRow)).length =
      results.countP (fun o => o.isSome) := by
  induction results with
  | nil => rfl
  | cons r rs ih =>
    cases r with
    | none => simpa [List.countP_cons] using ih
    | some v => simp [List.filterMap_cons, List.countP_cons, ih]

/-- C7 counterexample: with an empty final URL list, `main` returns
before opening the output file (`if not urls: ... return`), so no output
file — not even a header-only one — is produced, contradicting "this
holds for every input list". -/
theorem main_output_empty_cex :
    main_output (fun _ => none) (GeoIPDatabase.load []) [] = none := rfl

/-- C7 amended: for every NONEMPTY final URL list, the output file
consists of the header row `Relay URL,Latitude,Longitude` followed by
exactly one data row per successfully located endpoint, in input order,
with unresolved or unlocated endpoints omitted (zero located endpoints
give a header-only file); when the URL list is empty the program returns
without writing the output file. -/
theorem main_output_spec (resolver : String → Option (List String))
    (db : GeoIPDatabase) (urls : List String) (h : urls ≠ []) :
    main_output resolver db urls =
        some (headerRow ::
          (run_pipeline resolver db urls).filterMap (Option.map outcomeRow)) ∧
      ((run_pipeline resolver db urls).filterMap (Option.map outcomeRow)).length =
        (run_pipeline resolver db urls).countP (fun o => o.isSome) := by
  constructor
  · unfold main_output
    rw [if_neg h, write_rows_eq]
  · exact length_filterMap_outcomes _

/-- Witness for C7's amended theorem. -/
theorem main_output_spec_witness :
    main_output (fun _ => none) (GeoIPDatabase.load []) ["ws://a"] =
      some [headerRow] := by
  have h := (main_output_spec (fun _ => none) (GeoIPDatabase.load [])
    ["ws://a"] (by decide)).1
  rw [h]
  rfl

/-- C4: the loader skips a dataset row — without affecting other rows —
exactly when the row is empty, is a comment line (column 0 starting with
`#`), has fewer than nine columns, has a column-0 or column-1 value that
fails integer parsing, or has an empty latitude (column 7) or longitude
(column 8); each surviving row contributes exactly one record built from
columns 0, 1, 7, 8; and loading a concatenation of row lists concatenates
the resulting record lists, so surviving records keep the file order. -/
theorem load_row_spec :
    (∀ row : List String,
      rowRecord row = none ↔
        (row = [] ∨ (row.headD "").data.take 1 = ['#'] ∨ row.length < 9 ∨
          pyInt (row.getD 0 "") = none ∨ pyInt (row.getD 1 "") = none ∨
          row.getD 7 "" = "" ∨ row.getD 8 "" = "")) ∧
    (∀ row : List String, ∀ s e : Int, ∀ lat lon : String,
      rowRecord row = some (s, e, lat, lon) →
      pyInt (row.getD 0 "") = some s ∧ pyInt (row.getD 1 "") = some e ∧
        lat = row.getD 7 "" ∧ lon = row.getD 8 "") ∧
    (∀ rs1 rs2 : List (List String),
      (GeoIPDatabase.load (rs1 ++ rs2)).starts =
          (GeoIPDatabase.load rs1).starts ++ (GeoIPDatabase.load rs2).starts ∧
        (GeoIPDatabase.load (rs1 ++ rs2)).ends =
          (GeoIPDatabase.load rs1).ends ++ (GeoIPDatabase.load rs2).ends ∧
        (GeoIPDatabase.load (rs1 ++ rs2)).locations =
          (GeoIPDatabase.load rs1).locations ++
            (GeoIPDatabase.load rs2).locations) := by
  refine ⟨fun row => ?_, fun row s e lat lon h => ?_, fun rs1 rs2 => ?_⟩
  · unfold rowRecord
    by_cases h1 : row = []
    · rw [if_pos h1]
      exact iff_of_true rfl (Or.inl h1)
    · rw [if_neg h1]
      by_cases h2 : (row.headD "").data.take 1 = ['#']
      · rw [if_pos h2]
        exact iff_of_true rfl (Or.inr (Or.inl h2))
      · rw [if_neg h2]
        by_cases h3 : row.length < 9
        · rw [if_pos h3]
          exact iff_of_true rfl (Or.inr (Or.inr (Or.inl h3)))
        · rw [if_neg h3]
          rcases hp0 : pyInt (row.getD 0 "") with _ | s0
          · exact iff_of_true rfl
              (Or.inr (Or.inr (Or.inr (Or.inl rfl))))
          · rcases hp1 : pyInt (row.getD 1 "") with _ | s1
            · exact iff_of_true rfl
                (Or.inr (Or.inr (Or.inr (Or.inr (Or.inl rfl)))))
            · show (if row.getD 7 "" ≠ "" ∧ row.getD 8 "" ≠ "" then
                  some (s0, s1, row.getD 7 "", row.getD 8 "")
                else none) = none ↔ _
              by_cases h78 : row.getD 7 "" ≠ "" ∧ row.getD 8 "" ≠ ""
              · rw [if_pos h78]
                constructor
                · intro hx
                  exact absurd hx (by simp)
                · rintro (h | h | h | h | h | h | h)
                  · exact absurd h h1
                  · exact absurd h h2
                  · exact absurd h h3
                  · exact absurd h (by simp)
                  · exact absurd h (by simp)
                  · exact absurd h h78.1
                  · exact absurd h h78.2
              · rw [if_neg h78]
                by_cases h7 : row.getD 7 "" = ""
                · exact iff_of_true rfl
                    (Or.inr (Or.inr (Or.inr (Or.inr (Or.inr (Or.inl h7))))))
                · have h8 : row.getD 8 "" = "" := by
                    by_contra h8
                    exact h78 ⟨h7, h8⟩
                  exact iff_of_true rfl
                    (Or.inr (Or.inr (Or.inr (Or.inr (Or.inr (Or.inr h8))))))
  · unfold rowRecord at h
    by_cases h1 : row = []
    · rw [if_pos h1] at h
      cases h
    · rw [if_neg h1] at h
      by_cases h2 : (row.headD "").data.take 1 = ['#']
      · rw [if_pos h2] at h
        cases h
      · rw [if_neg h2] at h
        by_cases h3 : row.length < 9
        · rw [if_pos h3] at h
          cases h
        · rw [if_neg h3] at h
          revert h
          rcases hp0 : pyInt (row.getD 0 "") with _ | s0
          · intro h
            have hx : (none : Option (Int × Int × String × String)) =
                some (s, e, lat, lon) := h
            cases hx
          · rcases hp1 : pyInt (row.getD 1 "") with _ | s1
            · intro h
              have hx : (none : Option (Int × Int × String × String)) =
                  some (s, e, lat, lon) := h
              cases hx
            · intro h
              have hx : (if row.getD 7 "" ≠ "" ∧ row.getD 8 "" ≠ "" then
                  some (s0, s1, row.getD 7 "", row.getD 8 "")
                else none) = some (s, e, lat, lon) := h
              by_cases h78 : row.getD 7 "" ≠ "" ∧ row.getD 8 "" ≠ ""
              · rw [if_pos h78] at hx
                injection hx with hx2
                obtain ⟨hA, hB, hC, hD⟩ :
                    s0 = s ∧ s1 = e ∧
                      row.getD 7 "" = lat ∧ row.getD 8 "" = lon := by
                  simpa [Prod.ext_iff] using hx2
                refine ⟨?_, ?_, hC.symm, hD.symm⟩
                · rw [hA]
                · rw [hB]
              · rw [if_neg h78] at hx
                cases hx
  · simp [GeoIPDatabase.load, List.filterMap_append]

/-- Witness for C4 at a concrete accepted row. -/
theorem load_row_spec_witness :
    pyInt "16777216" = some 16777216 ∧ pyInt "16777471" = some 16777471 ∧
      ("35.6895" : String) = "35.6895" ∧ ("139.6917" : String) = "139.6917" := by
  have h := load_row_spec.2.1
    ["16777216", "16777471", "c", "s", "ci", "p", "z", "35.6895", "139.6917"]
    16777216 16777471 "35.6895" "139.6917" (by decide)
  exact h


/-! ## Pipeline lemmas -/

/-- C3: `resolve_and_locate` yields an absent outcome on an empty
hostname, on a resolver exception, on an empty address list, and on a
missing interval match; on a match it carries the raw endpoint and the
matched coordinate text unchanged, always using the first resolved
address.  As a total function it can raise nothing to its caller. -/
theorem resolve_and_locate_spec (resolver : String → Option (List String))
    (db : GeoIPDatabase) (url raw_url : String) :
    (clean_url url = "" → resolve_and_locate resolver db url raw_url = none) ∧
    (clean_url url ≠ "" → resolver (clean_url url) = none →
      resolve_and_locate resolver db url raw_url = none) ∧
    (clean_url url ≠ "" → resolver (clean_url url) = some [] →
      resolve_and_locate resolver db url raw_url = none) ∧
    (∀ ip : String, ∀ rest : List String, clean_url url ≠ "" →
      resolver (clean_url url) = some (ip :: rest) →
      (db.lookup ip = none →
        resolve_and_locate resolver db url raw_url = none) ∧
      (∀ lat lon : String, db.lookup ip = some (lat, lon) →
        resolve_and_locate resolver db url raw_url =
          some (raw_url, lat, lon))) := by
  refine ⟨fun h0 => ?_, fun h0 hr => ?_, fun h0 hr => ?_,
    fun ip rest h0 hr => ⟨fun hl => ?_, fun lat lon hl => ?_⟩⟩ <;>
      unfold resolve_and_locate
  · rw [if_pos h0]
  · rw [if_neg h0, hr]
  · rw [if_neg h0, hr]
  · rw [if_neg h0, hr]
    show (match db.lookup ip with
      | some (lat, lon) => some (raw_url, lat, lon)
      | none => none) = none
    rw [hl]
  · rw [if_neg h0, hr]
    show (match db.lookup ip with
      | some (lat, lon) => some (raw_url, lat, lon)
      | none => none) = some (raw_url, lat, lon)
    rw [hl]

/-- Witness for C3 at a concrete located endpoint. -/
theorem resolve_and_locate_spec_witness :
    resolve_and_locate (fun h => if h = "a" then some ["1.0.0.5"] else none)
      (GeoIPDatabase.mk [16777216] [16777471] [("35.6895", "139.6917")])
      "ws://a" "ws://a" = some ("ws://a", "35.6895", "139.6917") := by
  exact ((resolve_and_locate_spec
      (fun h => if h = "a" then some ["1.0.0.5"] else none)
      (GeoIPDatabase.mk [16777216] [16777471] [("35.6895", "139.6917")])
      "ws://a" "ws://a").2.2.2 "1.0.0.5" [] (by decide) (by decide)).2
    "35.6895" "139.6917" (by decide)

theorem resolve_and_locate_congr (r r2 : String → Option (List String))
    (db : GeoIPDatabase) (u ru : String)
    (h : r (clean_url u) = r2 (clean_url u)) :
    resolve_and_locate r db u ru = resolve_and_locate r2 db u ru := by
  unfold resolve_and_locate
  rw [h]

/-- C2: the gathered result list is positionally aligned with the input
list (same length, i-th outcome = `resolve_and_locate` of the i-th URL),
output depends only on the resolver's answers for the input hostnames
(determinism), and changing the resolver's behavior on one hostname
cannot change the outcome at any position with a different hostname
(failure isolation). -/
theorem run_pipeline_spec (resolver resolver2 : String → Option (List String))
    (db : GeoIPDatabase) (urls : List String) :
    (run_pipeline resolver db urls).length = urls.length ∧
    (∀ i : Nat, i < urls.length →
      (run_pipeline resolver db urls).getD i none =
        resolve_and_locate resolver db (urls.getD i "") (urls.getD i "")) ∧
    ((∀ u ∈ urls, resolver (clean_url u) = resolver2 (clean_url u)) →
      run_pipeline resolver db urls = run_pipeline resolver2 db urls) ∧
    (∀ h0 : String, (∀ h2 : String, h2 ≠ h0 → resolver h2 = resolver2 h2) →
      ∀ i : Nat, i < urls.length → clean_url (urls.getD i "") ≠ h0 →
        (run_pipeline resolver db urls).getD i none =
          (run_pipeline resolver2 db urls).getD i none) := by
  have hlen : (run_pipeline resolver db urls).length = urls.length :=
    List.length_map urls _
  have hlen2 : (run_pipeline resolver2 db urls).length = urls.length :=
    List.length_map urls _
  have hget : ∀ (r : String → Option (List String)) (i : Nat),
      i < urls.length →
      (run_pipeline r db urls).getD i none =
        resolve_and_locate r db (urls.getD i "") (urls.getD i "") := by
    intro r i hi
    unfold run_pipeline
    have hi2 : i <
        (urls.map (fun url => resolve_and_locate r db url url)).length := by
      simpa using hi
    rw [List.getD_eq_getElem _ _ hi2, List.getD_eq_getElem _ _ hi]
    exact List.getElem_map _
  refine ⟨hlen, hget resolver, fun hagree => ?_, fun h0 hagree i hi hne => ?_⟩
  · exact List.map_congr_left fun u hu =>
      resolve_and_locate_congr _ _ _ _ _ (hagree u hu)
  · rw [hget resolver i hi, hget resolver2 i hi]
    exact resolve_and_locate_congr _ _ _ _ _
      (hagree (clean_url (urls.getD i "")) hne)

/-- Witness for C2: making one endpoint's resolution fail leaves the
outcome at another position unchanged. -/
theorem run_pipeline_spec_witness :
    (run_pipeline (fun h => if h = "a" then some ["1.0.0.5"] else none)
        (GeoIPDatabase.mk [] [] []) ["ws://a", "ws://b"]).getD 1 none =
      (run_pipeline (fun _ => none)
        (GeoIPDatabase.mk [] [] []) ["ws://a", "ws://b"]).getD 1 none := by
  exact (run_pipeline_spec (fun h => if h = "a" then some ["1.0.0.5"] else none)
      (fun _ => none) (GeoIPDatabase.mk [] [] []) ["ws://a", "ws://b"]).2.2.2
    "a" (fun h2 hne => if_neg hne) 1 (by decide) (by decide)


/-! ## Binary-search lemmas -/

theorem bisect_right_aux_spec (a : List Int) (x : Int)
    (hmono : ∀ j, j < a.length → ∀ i, i < j → a.getD i 0 ≤ a.getD j 0) :
    ∀ fuel lo hi : Nat, hi - lo ≤ fuel → lo ≤ hi → hi ≤ a.length →
      (∀ k, k < lo → a.getD k 0 ≤ x) →
      (∀ k, hi ≤ k → k < a.length → x < a.getD k 0) →
      lo ≤ bisect_right_aux a x fuel lo hi ∧
        bisect_right_aux a x fuel lo hi ≤ hi ∧
        (∀ k, k < bisect_right_aux a x fuel lo hi → a.getD k 0 ≤ x) ∧
        (∀ k, bisect_right_aux a x fuel lo hi ≤ k → k < a.length →
          x < a.getD k 0) := by
  intro fuel
  induction fuel with
  | zero =>
    intro lo hi hfuel hle hhi hlo hhi2
    have hq : lo = hi := by omega
    simp only [bisect_right_aux]
    exact ⟨le_refl _, hle, hlo, fun k hk hk2 => hhi2 k (by omega) hk2⟩
  | succ fuel ih =>
    intro lo hi hfuel hle hhi hlo hhi2
    simp only [bisect_right_aux]
    by_cases hlt : lo < hi
    · rw [if_pos hlt]
      by_cases hx : x < a.getD ((lo + hi) / 2) 0
      · rw [if_pos hx]
        have hnewhi : ∀ k, (lo + hi) / 2 ≤ k → k < a.length →
            x < a.getD k 0 := by
          intro k hk hklen
          rcases eq_or_lt_of_le hk with heq | hlt2
          · rw [← heq]
            exact hx
          · exact lt_of_lt_of_le hx (hmono k hklen ((lo + hi) / 2) hlt2)
        have hrec := ih lo ((lo + hi) / 2) (by omega) (by omega) (by omega)
          hlo hnewhi
        exact ⟨hrec.1, le_trans hrec.2.1 (by omega), hrec.2.2.1, hrec.2.2.2⟩
      · rw [if_neg hx]
        push_neg at hx
        have hnewlo : ∀ k, k < (lo + hi) / 2 + 1 → a.getD k 0 ≤ x := by
          intro k hk
          rcases lt_or_ge k ((lo + hi) / 2) with h | h
          · exact le_trans (hmono ((lo + hi) / 2) (by omega) k h) hx
          · have hq : k = (lo + hi) / 2 := by omega
            rw [hq]
            exact hx
        have hrec := ih ((lo + hi) / 2 + 1) hi (by omega) (by omega) hhi
          hnewlo hhi2
        exact ⟨le_trans (by omega) hrec.1, hrec.2.1, hrec.2.2.1, hrec.2.2.2⟩
    · rw [if_neg hlt]
      exact ⟨le_refl _, hle, hlo, fun k hk hk2 => hhi2 k (by omega) hk2⟩

theorem bisect_right_spec (a : List Int) (x : Int)
    (hmono : ∀ j, j < a.length → ∀ i, i < j → a.getD i 0 ≤ a.getD j 0) :
    bisect_right a x ≤ a.length ∧
      (∀ k, k < bisect_right a x → a.getD k 0 ≤ x) ∧
      (∀ k, bisect_right a x ≤ k → k < a.length → x < a.getD k 0) := by
  have h := bisect_right_aux_spec a x hmono a.length 0 a.length (by omega)
    (by omega) (le_refl _) (fun k hk => absurd hk (Nat.not_lt_zero k))
    (fun k hk hk2 => absurd hk2 (Nat.not_lt.mpr hk))
  exact ⟨h.2.1, h.2.2.1, h.2.2.2⟩

/-- C1: on an index whose records are sorted ascending by start with
pairwise-disjoint intervals (end of an earlier record strictly below
start of a later one), the floor search plus single end-check of
`lookup` returns the location of any record whose interval contains
`ip` (boundaries included) and returns absent when no record's interval
contains `ip`. -/
theorem lookup_num_correct (db : GeoIPDatabase) (ip : Int)
    (hlen1 : db.ends.length = db.starts.length)
    (hlen2 : db.locations.length = db.starts.length)
    (hmono : ∀ j, j < db.starts.length → ∀ i, i < j →
      db.starts.getD i 0 ≤ db.starts.getD j 0)
    (hdisj : ∀ j, j < db.starts.length → ∀ i, i < j →
      db.ends.getD i 0 < db.starts.getD j 0) :
    (∀ i, i < db.starts.length → db.starts.getD i 0 ≤ ip →
      ip ≤ db.ends.getD i 0 →
      lookup_num db ip = some (db.locations.getD i ("", ""))) ∧
    ((∀ i, i < db.starts.length →
        ¬(db.starts.getD i 0 ≤ ip ∧ ip ≤ db.ends.getD i 0)) →
      lookup_num db ip = none) := by
  obtain ⟨hb1, hb2, hb3⟩ := bisect_right_spec db.starts ip hmono
  constructor
  · intro i hi hsi hei
    have hir : i < bisect_right db.starts ip := by
      by_contra hcon
      push_neg at hcon
      exact absurd hsi (not_le.mpr (hb3 i hcon hi))
    have hr0 : ¬(bisect_right db.starts ip = 0) := by omega
    have hmr : bisect_right db.starts ip - 1 < bisect_right db.starts ip := by
      omega
    have hmlen : bisect_right db.starts ip - 1 < db.starts.length := by omega
    have hsm : db.starts.getD (bisect_right db.starts ip - 1) 0 ≤ ip :=
      hb2 _ hmr
    have him : i = bisect_right db.starts ip - 1 := by
      rcases lt_or_ge i (bisect_right db.starts ip - 1) with hlt | hge
      · exact absurd hei
          (not_le.mpr (lt_of_lt_of_le (hdisj _ hmlen i hlt) hsm))
      · omega
    unfold lookup_num
    rw [if_neg hr0, if_pos ⟨hsm, him ▸ hei⟩, him]
  · intro habs
    by_cases hz : bisect_right db.starts ip = 0
    · unfold lookup_num
      rw [if_pos hz]
    · have hmlen : bisect_right db.starts ip - 1 < db.starts.length := by
        omega
      have hcond : ¬(db.starts.getD (bisect_right db.starts ip - 1) 0 ≤ ip ∧
          ip ≤ db.ends.getD (bisect_right db.starts ip - 1) 0) :=
        habs _ hmlen
      unfold lookup_num
      rw [if_neg hz, if_neg hcond]

/-- Witness for C1 at a concrete two-record index, with the query equal
to the first record's end boundary. -/
theorem lookup_num_correct_witness :
    lookup_num (GeoIPDatabase.mk [10, 30] [20, 40] [("a", "b"), ("c", "d")])
        20 = some ("a", "b") := by
  have h := (lookup_num_correct
    (GeoIPDatabase.mk [10, 30] [20, 40] [("a", "b"), ("c", "d")]) 20
    (by decide) (by decide) (by decide) (by decide)).1 0 (by decide)
    (by decide) (by decide)
  exact h


/-! ## Address-codec lemmas -/

theorem splitOnDot_no_dot {l : List Char} (h : ('.' : Char) ∉ l) :
    splitOnDot l = [l] := by
  induction l with
  | nil => rfl
  | cons c cs ih =>
    have hc : c ≠ '.' := by
      intro heq
      subst heq
      exact h (List.mem_cons_self _ _)
    have hcs : ('.' : Char) ∉ cs := fun hm => h (List.mem_cons_of_mem c hm)
    simp only [splitOnDot]
    rw [if_neg hc, ih hcs]

theorem splitOnDot_append {p : List Char} (l : List Char)
    (h : ('.' : Char) ∉ p) :
    splitOnDot (p ++ '.' :: l) = p :: splitOnDot l := by
  induction p with
  | nil =>
    simp [splitOnDot]
  | cons c p ih =>
    have hc : c ≠ '.' := by
      intro heq
      subst heq
      exact h (List.mem_cons_self _ _)
    have hp : ('.' : Char) ∉ p := fun hm => h (List.mem_cons_of_mem c hm)
    simp only [List.cons_append, splitOnDot, List.append_eq]
    rw [if_neg hc, ih hp]

theorem splitOnDot_joinDots (parts : List (List Char)) (hne : parts ≠ [])
    (hnd : ∀ p ∈ parts, ('.' : Char) ∉ p) :
    splitOnDot (joinDots parts) = parts := by
  induction parts with
  | nil => exact absurd rfl hne
  | cons p ps ih =>
    rcases ps with _ | ⟨q, qs⟩
    · simp only [joinDots]
      exact splitOnDot_no_dot (hnd p (List.mem_cons_self _ _))
    · simp only [joinDots]
      rw [splitOnDot_append _ (hnd p (List.mem_cons_self _ _))]
      rw [ih (by simp) (fun r hr => hnd r (List.mem_cons_of_mem p hr))]

theorem digitChar_isDigit (r : Nat) : (digitChar r).isDigit = true := by
  unfold digitChar
  split_ifs <;> rfl

theorem digitChar_toNat (r : Nat) (h : r < 10) :
    (digitChar r).toNat - 48 = r := by
  interval_cases r <;> rfl

theorem digitChar_ne_zero (r : Nat) (h1 : 0 < r) (h2 : r < 10) :
    digitChar r ≠ '0' := by
  interval_cases r <;> decide

theorem decDigitsAux_zero (fuel : Nat) : decDigitsAux fuel 0 = [] := by
  cases fuel <;> rfl

theorem decDigitsAux_all_digits :
    ∀ fuel n : Nat, ∀ c ∈ decDigitsAux fuel n, c.isDigit = true := by
  intro fuel
  induction fuel with
  | zero => intro n c hc; cases hc
  | succ fuel ih =>
    intro n c hc
    by_cases h0 : n = 0
    · rw [h0] at hc
      cases hc
    · simp only [decDigitsAux, if_neg h0] at hc
      rcases List.mem_append.mp hc with h | h
      · exact ih _ c h
      · rw [List.mem_singleton.mp h]
        exact digitChar_isDigit _

theorem decDigitsAux_head :
    ∀ fuel n : Nat, 0 < n → n ≤ fuel →
      ∃ c cs, decDigitsAux fuel n = c :: cs ∧ c.isDigit = true ∧ c ≠ '0' := by
  intro fuel
  induction fuel with
  | zero => intro n h1 h2; omega
  | succ fuel ih =>
    intro n h1 h2
    have h0 : ¬(n = 0) := by omega
    simp only [decDigitsAux, if_neg h0]
    by_cases hsmall : n < 10
    · have hq : n / 10 = 0 := by omega
      rw [hq, decDigitsAux_zero, List.nil_append]
      have hmod : n % 10 = n := by omega
      rw [hmod]
      exact ⟨digitChar n, [], rfl, digitChar_isDigit n,
        digitChar_ne_zero n h1 hsmall⟩
    · obtain ⟨c, cs, heq, hdig, hne⟩ := ih (n / 10) (by omega) (by omega)
      rw [heq]
      exact ⟨c, cs ++ [digitChar (n % 10)], rfl, hdig, hne⟩

theorem decValue_decDigitsAux :
    ∀ fuel n : Nat, n ≤ fuel → ∀ acc : Nat,
      List.foldl (fun a c => a * 10 + (c.toNat - 48)) acc
          (decDigitsAux fuel n) =
        acc * 10 ^ (decDigitsAux fuel n).length + n := by
  intro fuel
  induction fuel with
  | zero =>
    intro n hle acc
    have h0 : n = 0 := by omega
    subst h0
    simp [decDigitsAux]
  | succ fuel ih =>
    intro n hle acc
    by_cases h0 : n = 0
    · subst h0
      simp [decDigitsAux]
    · simp only [decDigitsAux, if_neg h0]
      rw [List.foldl_append]
      have hrec := ih (n / 10) (by omega) acc
      rw [hrec]
      simp only [List.foldl_cons, List.foldl_nil, List.length_append,
        List.length_singleton]
      rw [digitChar_toNat (n % 10) (by omega)]
      have hdm : 10 * (n / 10) + n % 10 = n := Nat.div_add_mod n 10
      calc (acc * 10 ^ (decDigitsAux fuel (n / 10)).length + n / 10) * 10 +
            n % 10
          = acc * (10 ^ (decDigitsAux fuel (n / 10)).length * 10) +
              (10 * (n / 10) + n % 10) := by ring
        _ = acc * (10 ^ (decDigitsAux fuel (n / 10)).length * 10) + n := by
              rw [hdm]
        _ = acc * 10 ^ ((decDigitsAux fuel (n / 10)).length + 1) + n := by
              rw [pow_succ]

theorem parseComponent_decRepr (n : Nat) :
    parseComponent (decRepr n) = some n := by
  by_cases h0 : n = 0
  · subst h0
    rfl
  · obtain ⟨c, cs, heq, hdig, hne0⟩ :=
      decDigitsAux_head (n + 1) n (by omega) (by omega)
    have hrepr : decRepr n = c :: cs := by
      unfold decRepr
      rw [if_neg h0, heq]
    have hall : ∀ x ∈ c :: cs, Char.isDigit x = true := by
      rw [← heq]
      exact decDigitsAux_all_digits (n + 1) n
    have htake : (c :: cs).takeWhile Char.isDigit = c :: cs :=
      List.takeWhile_eq_self_iff.mpr hall
    have hdrop : (c :: cs).dropWhile Char.isDigit = [] :=
      List.dropWhile_eq_nil_iff.mpr hall
    have hps : parseStrtoul0 (c :: cs) = some (decValue (c :: cs), []) := by
      simp only [parseStrtoul0]
      rw [if_pos hdig, if_neg hne0, htake, hdrop]
    have hval : decValue (c :: cs) = n := by
      have hv := decValue_decDigitsAux (n + 1) n (by omega) 0
      rw [heq] at hv
      simpa [decValue] using hv
    rw [hrepr]
    unfold parseComponent
    rw [hps]
    show some (decValue (c :: cs)) = some n
    rw [hval]

theorem decRepr_no_dot (n : Nat) : ('.' : Char) ∉ decRepr n := by
  intro hm
  by_cases h0 : n = 0
  · subst h0
    simp [decRepr] at hm
  · unfold decRepr at hm
    rw [if_neg h0] at hm
    have : ('.' : Char).isDigit = true := decDigitsAux_all_digits _ _ _ hm
    exact absurd this (by decide)

/-- C6 counterexample: the three-segment input `"1.2.3"` is accepted by
`inet_aton` (per inet(3) the last component fills the remaining two
bytes), contradicting "succeeds exactly on dotted-quad literals / fails
on wrong segment count". -/
theorem inet_aton_three_part_cex : inet_aton "1.2.3" = some 16908291 := by
  decide

/-- C6 amended: `inet_aton` succeeds on every four-part dotted-quad of
decimal octets in `[0, 255]`, yielding the big-endian composed value
(octet 0 most significant); on dot-free components it is exactly
component-wise `strtoul` parsing followed by `assemble`, which enforces
the byte ranges (so a non-numeric segment, an out-of-range component, or
more than four segments fail); but, per inet(3), one-, two- and
three-part numeric forms are also accepted, not rejected. -/
theorem inet_aton_spec :
    (∀ a b c d : Nat, a ≤ 255 → b ≤ 255 → c ≤ 255 → d ≤ 255 →
      inet_aton (mkQuad a b c d) =
        some (a * 16777216 + b * 65536 + c * 256 + d)) ∧
    (∀ parts : List (List Char), parts ≠ [] →
      (∀ p ∈ parts, ('.' : Char) ∉ p) →
      inetAtonChars (joinDots parts) =
        Option.bind (parseComponents parts) assemble) ∧
    (∀ vals : List Nat, 4 < vals.length → assemble vals = none) := by
  have hmaster : ∀ parts : List (List Char), parts ≠ [] →
      (∀ p ∈ parts, ('.' : Char) ∉ p) →
      inetAtonChars (joinDots parts) =
        Option.bind (parseComponents parts) assemble := by
    intro parts hne hnd
    unfold inetAtonChars
    rw [splitOnDot_joinDots parts hne hnd]
    rcases h : parseComponents parts with _ | vals <;> simp
  refine ⟨?_, hmaster, ?_⟩
  · intro a b c d ha hb hc hd
    have hnd : ∀ p ∈ [decRepr a, decRepr b, decRepr c, decRepr d],
        ('.' : Char) ∉ p := by
      intro p hp
      simp only [List.mem_cons, List.not_mem_nil, or_false] at hp
      rcases hp with h | h | h | h <;> subst h <;> exact decRepr_no_dot _
    show inetAtonChars (joinDots [decRepr a, decRepr b, decRepr c, decRepr d]) =
      some (a * 16777216 + b * 65536 + c * 256 + d)
    rw [hmaster _ (by simp) hnd]
    have hcomp : parseComponents [decRepr a, decRepr b, decRepr c, decRepr d] =
        some [a, b, c, d] := by
      simp [parseComponents, parseComponent_decRepr]
    rw [hcomp]
    show assemble [a, b, c, d] = _
    simp only [assemble]
    rw [if_pos ⟨ha, hb, hc, hd⟩]
  · intro vals hlen
    rcases vals with _ | ⟨a, _ | ⟨b, _ | ⟨c, _ | ⟨d, _ | ⟨e, rest⟩⟩⟩⟩⟩
    · simp at hlen
    · simp at hlen
    · simp at hlen
    · simp at hlen
    · simp at hlen
    · rfl

/-- Witness for C6's amended theorem at a concrete quad. -/
theorem inet_aton_spec_witness : inet_aton (mkQuad 1 2 3 4) = some 16909060 := by
  have h := inet_aton_spec.1 1 2 3 4 (by decide) (by decide) (by decide)
    (by decide)
  exact h


/-- C5 counterexample: the scheme is stripped case-sensitively (the
Python regex has no IGNORECASE flag), so for `"WS://example.com"` the
claimed case-insensitive stripping predicts `"example.com"`, but
`clean_url` keeps the scheme text and truncates at the first `/` and
first `:`, producing `"WS"`. -/
theorem clean_url_case_cex :
    clean_url "WS://example.com" = "WS" ∧
      clean_url "WS://example.com" ≠ "example.com" := by
  constructor
  · rfl
  · decide

/-- C5 amended: `clean_url` removes a leading `ws://` or `wss://` scheme
matched case-sensitively (lowercase only; uppercase or mixed-case schemes
are not stripped), then truncates the remainder at the first `/` and then
at the first `:` — jointly the longest prefix free of both characters —
returning the empty string when nothing remains. -/
theorem clean_url_spec (s : String) :
    (s.data.take 6 = ['w', 's', 's', ':', '/', '/'] →
      clean_url s =
        ⟨(s.data.drop 6).takeWhile (fun c => !(c == '/' || c == ':'))⟩) ∧
    (s.data.take 6 ≠ ['w', 's', 's', ':', '/', '/'] →
      s.data.take 5 = ['w', 's', ':', '/', '/'] →
      clean_url s =
        ⟨(s.data.drop 5).takeWhile (fun c => !(c == '/' || c == ':'))⟩) ∧
    (s.data.take 6 ≠ ['w', 's', 's', ':', '/', '/'] →
      s.data.take 5 ≠ ['w', 's', ':', '/', '/'] →
      clean_url s =
        ⟨s.data.takeWhile (fun c => !(c == '/' || c == ':'))⟩) := by
  refine ⟨fun h6 => ?_, fun h6 h5 => ?_, fun h6 h5 => ?_⟩ <;>
    · unfold clean_url stripScheme
      first
        | rw [if_pos h6, splitHead_splitHead]
        | rw [if_neg h6, if_pos h5, splitHead_splitHead]
        | rw [if_neg h6, if_neg h5, splitHead_splitHead]

/-- Witness for C5's amended theorem at a concrete URL with scheme, port
and path. -/
theorem clean_url_spec_witness :
    clean_url "wss://example.com:443/path" = "example.com" := by
  have h := (clean_url_spec "wss://example.com:443/path").1 (by decide)
  rw [h]
  decide

/-- C9: the three parallel arrays built by `load` always have equal
length — `load` appends to all three in lockstep per accepted row, and
`lookup` (a pure function here) never modifies them — so every position
of a built index holds a well-defined record. -/
theorem load_parallel_lengths (rows : List (List String)) :
    (GeoIPDatabase.load rows).starts.length =
        (GeoIPDatabase.load rows).ends.length ∧
      (GeoIPDatabase.load rows).starts.length =
        (GeoIPDatabase.load rows).locations.length := by
  simp [GeoIPDatabase.load]

/-- C8 counterexample: with the dataset file present (so acquisition is
never attempted, let alone failed) but the dataset read raising, the
process still exits 1, contradicting "non-zero only on fatal dataset
acquisition failure".  (The later stages — URL list read fine, list
nonempty, output written fine — are irrelevant to this exit.) -/
theorem main_exit_code_cex :
    main_exit_code true true false true false true ≠ 0 := by decide

/-- C8 amended: the exit status is zero exactly when the dataset file is
present or acquired successfully, the dataset read does not raise, the
URL-list read does not raise, and either the final URL list is empty
(early return, no output file) or the output file is opened and written
successfully.  Acquisition failure and a raising dataset read exit 1 via
`sys.exit(1)`; an exception while reading the URL list or while
opening/writing the output file propagates uncaught past the
KeyboardInterrupt-only handler and also exits the interpreter non-zero;
every fully completed run — including one locating zero endpoints —
exits 0. -/
theorem main_exit_code_spec :
    ∀ f d r i u o : Bool,
      main_exit_code f d r i u o = 0 ↔
        ((f = true ∨ d = true) ∧ r = true ∧ i = true ∧
          (u = true ∨ o = true)) := by
  decide

end GeoRelays
